import Mathlib

/-!
Verification of the execution-client core of `inv_trader/execution.py`
(an early `nautilus_trader` source tree): the abstract `ExecutionClient`
with its strategy registry and order index, the deterministic
`MockExecClient` adapter, and the `LiveExecClient` stub.

The Python code is embedded shallowly:

* Python dictionaries (`_registered_strategies`, `_order_index`) become
  association lists with first-match lookup (keys are unique because
  registration rejects duplicates, so first-match lookup coincides with
  dictionary lookup; insertion appends, matching dict insertion order).
* A strategy's `_update_events` callback is observed by the list of
  events delivered to it, stored as the value of its registry entry.
* Raised exceptions become a `some err` second component; since Python
  mutates the client in place before an exception propagates, every
  operation returns the state reached so far together with the optional
  exception.
* `uuid.uuid4()` and `datetime.utcnow()` are oracles: an `Oracle` maps
  the index of each call to the value it returns, and the simulation
  state carries how many calls each has consumed.
-/

abbrev StrategyId := String
abbrev OrderId := String
abbrev Uuid := Nat
abbrev Timestamp := Nat
abbrev Price := Int

/-- Modelled from the spec: `inv_trader/model/order.py` is not in the
source tree. An `Order` identifies a trading intent with an opaque
unique `id` and a `symbol`; only these two attributes are read by
`execution.py`. -/
structure Order where
  id : OrderId
  symbol : String
deriving Repr, DecidableEq

/-- Modelled from the spec: `inv_trader/model/events.py` is not in the
source tree. Concrete `OrderEvent` variants per the spec table: every
variant carries `symbol` and `order_id` plus an `occurred_timestamp`,
an `event_id` and an `event_timestamp` (matching the positional
arguments at the construction sites in `execution.py`); `working` and
`modified` additionally carry `broker_order_id`, `modified` a
`new_price`, and `rejected`/`cancelReject` a `reason`. -/
inductive OrderEvent where
  | submitted (symbol : String) (order_id : OrderId)
      (occurred_timestamp : Timestamp) (event_id : Uuid) (event_timestamp : Timestamp)
  | accepted (symbol : String) (order_id : OrderId)
      (occurred_timestamp : Timestamp) (event_id : Uuid) (event_timestamp : Timestamp)
  | working (symbol : String) (order_id : OrderId) (broker_order_id : String)
      (occurred_timestamp : Timestamp) (event_id : Uuid) (event_timestamp : Timestamp)
  | rejected (symbol : String) (order_id : OrderId) (reason : String)
      (occurred_timestamp : Timestamp) (event_id : Uuid) (event_timestamp : Timestamp)
  | modified (symbol : String) (order_id : OrderId) (broker_order_id : String)
      (new_price : Price)
      (occurred_timestamp : Timestamp) (event_id : Uuid) (event_timestamp : Timestamp)
  | cancelled (symbol : String) (order_id : OrderId)
      (occurred_timestamp : Timestamp) (event_id : Uuid) (event_timestamp : Timestamp)
  | cancelReject (symbol : String) (order_id : OrderId) (reason : String)
      (occurred_timestamp : Timestamp) (event_id : Uuid) (event_timestamp : Timestamp)
  | expired (symbol : String) (order_id : OrderId)
      (occurred_timestamp : Timestamp) (event_id : Uuid) (event_timestamp : Timestamp)
deriving Repr, DecidableEq

/-- The `order_id` attribute shared by every `OrderEvent` variant. -/
def OrderEvent.order_id : OrderEvent → OrderId
  | .submitted _ oid _ _ _ => oid
  | .accepted _ oid _ _ _ => oid
  | .working _ oid _ _ _ _ => oid
  | .rejected _ oid _ _ _ _ => oid
  | .modified _ oid _ _ _ _ _ => oid
  | .cancelled _ oid _ _ _ => oid
  | .cancelReject _ oid _ _ _ _ => oid
  | .expired _ oid _ _ _ => oid

/-- The argument Python's dynamically typed `_on_event(self, event)` can
receive: an `OrderEvent`, some other `Event` (for example an account
event), or a value that is not an `Event` at all. -/
inductive EventArg where
  | orderEvent (e : OrderEvent)
  | otherEvent
  | notAnEvent
deriving Repr, DecidableEq

/-- The argument Python's `submit_order(self, order, strategy_id)` can
receive in the `order` position: an `Order`, or some other object
(`_register_order` raises `TypeError` on the latter). -/
inductive OrderArg where
  | order (o : Order)
  | notAnOrder
deriving Repr, DecidableEq

/-- Exceptions raised by the embedded code: `TypeError` and
`ValueError` are raised explicitly with their message; `KeyError`
arises from a failed dictionary subscript `d[key]`. -/
inductive ExecError where
  | typeError (msg : String)
  | valueError (msg : String)
  | keyError (key : String)
deriving Repr, DecidableEq

/-- The mutable state of an `ExecutionClient`:
`_registered_strategies : Dict[StrategyId, callable]` with each
callable observed by the list of events it has been given, and
`_order_index : Dict[OrderId, StrategyId]`. `log` collects the strings
printed by `_log`. -/
structure ExecClientState where
  registered_strategies : List (StrategyId × List OrderEvent)
  order_index : List (OrderId × StrategyId)
  log : List String
deriving Repr, DecidableEq

/-- The freshly constructed client: both dictionaries empty. -/
def ExecClientState.empty : ExecClientState :=
  { registered_strategies := [], order_index := [], log := [] }

/-- Invoking the stored callable `self._registered_strategies[strategy_id](event)`:
the event is appended to that strategy's delivered-event list; every
other entry is untouched. -/
def deliver (sinks : List (StrategyId × List OrderEvent)) (strategy_id : StrategyId)
    (e : OrderEvent) : List (StrategyId × List OrderEvent) :=
  sinks.map fun p => if p.1 = strategy_id then (p.1, p.2 ++ [e]) else p

/-- `ExecutionClient.register_strategy`: rejects a duplicate strategy
identity with `ValueError`, otherwise stores a fresh sink. (The
`isinstance(strategy, TradeStrategy)` precondition is discharged by
typing; `str(strategy)` is the `strategy_id` argument.) -/
def register_strategy (s : ExecClientState) (strategy_id : StrategyId) :
    ExecClientState × Option ExecError :=
  match s.registered_strategies.lookup strategy_id with
  | some _ => (s, some (.valueError "The strategy does not have a unique name and label."))
  | none =>
      ({ s with registered_strategies := s.registered_strategies ++ [(strategy_id, [])] },
       none)

/-- `ExecutionClient._register_order`: raises `TypeError` for a
non-`Order` argument, `ValueError` for a duplicate order id, otherwise
stores `order.id → strategy_id` in the order index. -/
def _register_order (s : ExecClientState) (ord : OrderArg) (strategy_id : StrategyId) :
    ExecClientState × Option ExecError :=
  match ord with
  | .notAnOrder => (s, some (.typeError "The order is not a type of Order."))
  | .order o =>
      match s.order_index.lookup o.id with
      | some _ => (s, some (.valueError "The order does not have a unique id."))
      | none => ({ s with order_index := s.order_index ++ [(o.id, strategy_id)] }, none)

/-- `ExecutionClient._on_event`: for a non-`Event` argument the code
only constructs (never raises) a `TypeError`, so the call returns
normally; for an `OrderEvent` the owner is looked up in the order
index — if found, the event is dispatched through the registered
strategies dictionary (whose subscript raises `KeyError` when the
strategy is absent), otherwise a warning is logged and the event
dropped; any other `Event` falls through with no effect. -/
def _on_event (s : ExecClientState) (ev : EventArg) : ExecClientState × Option ExecError :=
  match ev with
  | .orderEvent e =>
      match s.order_index.lookup e.order_id with
      | some strategy_id =>
          match s.registered_strategies.lookup strategy_id with
          | some _ =>
              ({ s with registered_strategies := deliver s.registered_strategies strategy_id e },
               none)
          | none => (s, some (.keyError strategy_id))
      | none =>
          ({ s with log := s.log ++
              ["Execution: Warning given event order id not contained in index " ++ e.order_id] },
           none)
  | .otherEvent => (s, none)
  | .notAnEvent => (s, none)

/-- The ambient nondeterminism of a run: `uuid n` is the value returned
by the `n`-th call to `uuid.uuid4()` and `time n` the value returned by
the `n`-th call to `datetime.datetime.utcnow()`. -/
structure Oracle where
  uuid : Nat → Uuid
  time : Nat → Timestamp

/-- A `MockExecClient` together with counters recording how many
`uuid.uuid4()` and `datetime.utcnow()` calls have been made. -/
structure SimState where
  client : ExecClientState
  uuid_count : Nat
  time_count : Nat
deriving Repr, DecidableEq

/-- The freshly constructed mock client. -/
def SimState.empty : SimState :=
  { client := ExecClientState.empty, uuid_count := 0, time_count := 0 }

/-- Dispatching a list of events through `_on_event` in order: an
uncaught exception from one call aborts the remaining calls, keeping
the state reached so far (in `MockExecClient.submit_order` the three
`_on_event` statements run in sequence). -/
def dispatch_all (s : ExecClientState) : List EventArg → ExecClientState × Option ExecError
  | [] => (s, none)
  | e :: es =>
      match _on_event s e with
      | (s1, none) => dispatch_all s1 es
      | (s1, some err) => (s1, some err)

/-- `MockExecClient.submit_order`: registers the order first (an
exception there propagates with no further action), then constructs
`OrderSubmitted`, `OrderAccepted` and `OrderWorking` — each with a
fresh `utcnow` pair and `uuid4`, evaluated left to right, the working
event carrying broker id `"B" + order.id` — and delivers the three
through `_on_event` in that order. -/
def mock_submit_order (o : Oracle) (σ : SimState) (ord : OrderArg)
    (strategy_id : StrategyId) : SimState × Option ExecError :=
  match _register_order σ.client ord strategy_id with
  | (c, some err) => ({ σ with client := c }, some err)
  | (c, none) =>
      match ord with
      | .notAnOrder =>
          -- unreachable: `_register_order` has already raised `TypeError`
          -- for a non-`Order` argument
          ({ σ with client := c }, some (.typeError "The order is not a type of Order."))
      | .order order =>
          let t := σ.time_count
          let u := σ.uuid_count
          let order_submitted : OrderEvent :=
            .submitted order.symbol order.id (o.time t) (o.uuid u) (o.time (t + 1))
          let order_accepted : OrderEvent :=
            .accepted order.symbol order.id (o.time (t + 2)) (o.uuid (u + 1)) (o.time (t + 3))
          let order_working : OrderEvent :=
            .working order.symbol order.id ("B" ++ order.id)
              (o.time (t + 4)) (o.uuid (u + 2)) (o.time (t + 5))
          let res := dispatch_all c
            [.orderEvent order_submitted, .orderEvent order_accepted, .orderEvent order_working]
          ({ client := res.1, uuid_count := u + 3, time_count := t + 6 }, res.2)

/-- `MockExecClient.cancel_order`: constructs a single `OrderCancelled`
event and delivers it through `_on_event`. -/
def mock_cancel_order (o : Oracle) (σ : SimState) (order : Order) :
    SimState × Option ExecError :=
  let t := σ.time_count
  let u := σ.uuid_count
  let order_cancelled : OrderEvent :=
    .cancelled order.symbol order.id (o.time t) (o.uuid u) (o.time (t + 1))
  let res := _on_event σ.client (.orderEvent order_cancelled)
  ({ client := res.1, uuid_count := u + 1, time_count := t + 2 }, res.2)

/-- `MockExecClient.modify_order`: constructs a single `OrderModified`
event carrying broker id `"B" + order.id` and the new price, and
delivers it through `_on_event`. -/
def mock_modify_order (o : Oracle) (σ : SimState) (order : Order) (new_price : Price) :
    SimState × Option ExecError :=
  let t := σ.time_count
  let u := σ.uuid_count
  let order_modified : OrderEvent :=
    .modified order.symbol order.id ("B" ++ order.id) new_price
      (o.time t) (o.uuid u) (o.time (t + 1))
  let res := _on_event σ.client (.orderEvent order_modified)
  ({ client := res.1, uuid_count := u + 1, time_count := t + 2 }, res.2)

/-- `LiveExecClient.submit_order`: registers the order and then does
nothing further (the venue round-trip is a `TODO` stub). -/
def live_submit_order (s : ExecClientState) (ord : OrderArg) (strategy_id : StrategyId) :
    ExecClientState × Option ExecError :=
  _register_order s ord strategy_id

/-- One externally invokable operation on the mock execution client. -/
inductive Call where
  | registerStrategy (strategy_id : StrategyId)
  | submitOrder (ord : OrderArg) (strategy_id : StrategyId)
  | cancelOrder (order : Order)
  | modifyOrder (order : Order) (new_price : Price)
  | onEvent (ev : EventArg)
deriving Repr, DecidableEq

/-- Execute one call against the mock client. -/
def step (o : Oracle) (σ : SimState) : Call → SimState × Option ExecError
  | .registerStrategy sid =>
      let res := register_strategy σ.client sid
      ({ σ with client := res.1 }, res.2)
  | .submitOrder ord sid => mock_submit_order o σ ord sid
  | .cancelOrder order => mock_cancel_order o σ order
  | .modifyOrder order p => mock_modify_order o σ order p
  | .onEvent ev =>
      let res := _on_event σ.client ev
      ({ σ with client := res.1 }, res.2)

/-- Execute a sequence of calls; an uncaught exception aborts the run,
keeping the state reached so far. -/
def run (o : Oracle) (σ : SimState) : List Call → SimState × Option ExecError
  | [] => (σ, none)
  | c :: cs =>
      match step o σ c with
      | (σ1, none) => run o σ1 cs
      | (σ1, some err) => (σ1, some err)

/-- Erase the oracle-drawn fields of an event: `event_id` and the two
timestamps are zeroed, every other field is kept. -/
def eraseEvent : OrderEvent → OrderEvent
  | .submitted sym oid _ _ _ => .submitted sym oid 0 0 0
  | .accepted sym oid _ _ _ => .accepted sym oid 0 0 0
  | .working sym oid bid _ _ _ => .working sym oid bid 0 0 0
  | .rejected sym oid r _ _ _ => .rejected sym oid r 0 0 0
  | .modified sym oid bid p _ _ _ => .modified sym oid bid p 0 0 0
  | .cancelled sym oid _ _ _ => .cancelled sym oid 0 0 0
  | .cancelReject sym oid r _ _ _ => .cancelReject sym oid r 0 0 0
  | .expired sym oid _ _ _ => .expired sym oid 0 0 0

/-- Erase the oracle-drawn fields of every delivered event. -/
def eraseSinks (l : List (StrategyId × List OrderEvent)) :
    List (StrategyId × List OrderEvent) :=
  l.map fun p => (p.1, p.2.map eraseEvent)

/-- The oracle-independent part of a client state. -/
def abstractClient (c : ExecClientState) : ExecClientState :=
  { registered_strategies := eraseSinks c.registered_strategies
    order_index := c.order_index
    log := c.log }

/-- The oracle-independent part of a simulation state (the call
counters are dropped as well). -/
def abstractSim (σ : SimState) : ExecClientState :=
  abstractClient σ.client

/-! ### Association-list helper lemmas -/

theorem lookup_append_some {α β : Type} [BEq α] (l1 l2 : List (α × β)) (k : α) (v : β)
    (h : l1.lookup k = some v) : (l1 ++ l2).lookup k = some v := by
  induction l1 with
  | nil => simp at h
  | cons p t ih =>
      rw [List.lookup_cons] at h
      rw [List.cons_append, List.lookup_cons]
      cases hk : k == p.1 with
      | true => simpa [hk] using h
      | false =>
          simp only [hk] at h ⊢
          exact ih h

theorem lookup_append_none {α β : Type} [BEq α] (l1 l2 : List (α × β)) (k : α)
    (h : l1.lookup k = none) : (l1 ++ l2).lookup k = l2.lookup k := by
  induction l1 with
  | nil => simp
  | cons p t ih =>
      rw [List.lookup_cons] at h
      rw [List.cons_append, List.lookup_cons]
      cases hk : k == p.1 with
      | true => simp [hk] at h
      | false =>
          simp only [hk] at h ⊢
          exact ih h

theorem lookup_singleton_self {α β : Type} [BEq α] [LawfulBEq α] (k : α) (v : β) :
    ([(k, v)] : List (α × β)).lookup k = some v := by
  rw [List.lookup_cons]
  simp

theorem deliver_cons (a : StrategyId) (b : List OrderEvent)
    (t : List (StrategyId × List OrderEvent)) (strategy_id : StrategyId) (e : OrderEvent) :
    deliver ((a, b) :: t) strategy_id e =
      (if a = strategy_id then (a, b ++ [e]) else (a, b)) :: deliver t strategy_id e := rfl

theorem lookup_deliver_self (l : List (StrategyId × List OrderEvent)) (strategy_id : StrategyId)
    (e : OrderEvent) (evs : List OrderEvent) (h : l.lookup strategy_id = some evs) :
    (deliver l strategy_id e).lookup strategy_id = some (evs ++ [e]) := by
  induction l with
  | nil => simp at h
  | cons p t ih =>
      obtain ⟨a, b⟩ := p
      rw [List.lookup_cons] at h
      rw [deliver_cons]
      cases hbeq : strategy_id == a with
      | true =>
          obtain rfl : strategy_id = a := beq_iff_eq.mp hbeq
          simp only [hbeq] at h
          rw [if_pos rfl, List.lookup_cons]
          simp only [hbeq]
          injection h with h2
          rw [h2]
      | false =>
          have hne : ¬ a = strategy_id := by
            intro hh
            rw [hh, beq_self_eq_true] at hbeq
            exact absurd hbeq (by simp)
          simp only [hbeq] at h
          rw [if_neg hne, List.lookup_cons]
          simp only [hbeq]
          exact ih h

theorem lookup_deliver_ne (l : List (StrategyId × List OrderEvent))
    (strategy_id sid : StrategyId) (e : OrderEvent) (h : sid ≠ strategy_id) :
    (deliver l strategy_id e).lookup sid = l.lookup sid := by
  induction l with
  | nil => rfl
  | cons p t ih =>
      obtain ⟨a, b⟩ := p
      rw [deliver_cons]
      by_cases hk : a = strategy_id
      · have hbeq : (sid == a) = false := by
          rw [beq_eq_false_iff_ne]
          exact fun hh => h (hk ▸ hh)
        rw [if_pos hk, List.lookup_cons, List.lookup_cons]
        simp only [hbeq]
        exact ih
      · rw [if_neg hk, List.lookup_cons, List.lookup_cons]
        cases hbeq : sid == a with
        | true => rfl
        | false => exact ih

/-! ### Erasure lemmas -/

/-- Erase the oracle-drawn fields inside an `_on_event` argument. -/
def eraseArg : EventArg → EventArg
  | .orderEvent e => .orderEvent (eraseEvent e)
  | .otherEvent => .otherEvent
  | .notAnEvent => .notAnEvent

theorem order_id_eraseEvent (e : OrderEvent) : (eraseEvent e).order_id = e.order_id := by
  cases e <;> rfl

theorem eraseSinks_cons (a : StrategyId) (b : List OrderEvent)
    (t : List (StrategyId × List OrderEvent)) :
    eraseSinks ((a, b) :: t) = (a, b.map eraseEvent) :: eraseSinks t := rfl

theorem eraseSinks_append (l1 l2 : List (StrategyId × List OrderEvent)) :
    eraseSinks (l1 ++ l2) = eraseSinks l1 ++ eraseSinks l2 := by
  simp [eraseSinks]

theorem lookup_eraseSinks (l : List (StrategyId × List OrderEvent)) (sid : StrategyId) :
    (eraseSinks l).lookup sid = (l.lookup sid).map (List.map eraseEvent) := by
  induction l with
  | nil => rfl
  | cons p t ih =>
      obtain ⟨a, b⟩ := p
      rw [eraseSinks_cons, List.lookup_cons, List.lookup_cons]
      cases hbeq : sid == a with
      | true => rfl
      | false => exact ih

theorem eraseSinks_deliver (l : List (StrategyId × List OrderEvent)) (sid : StrategyId)
    (e : OrderEvent) :
    eraseSinks (deliver l sid e) = deliver (eraseSinks l) sid (eraseEvent e) := by
  induction l with
  | nil => rfl
  | cons p t ih =>
      obtain ⟨a, b⟩ := p
      by_cases hk : a = sid
      · simp [deliver_cons, eraseSinks_cons, hk, ih, List.map_append]
      · simp [deliver_cons, eraseSinks_cons, hk, ih]

theorem abstractClient_eq_iff (c1 c2 : ExecClientState) :
    abstractClient c1 = abstractClient c2 ↔
      eraseSinks c1.registered_strategies = eraseSinks c2.registered_strategies
      ∧ c1.order_index = c2.order_index ∧ c1.log = c2.log := by
  simp [abstractClient]

/-! ### The oracle-independent part of every operation is deterministic -/

theorem on_event_abstract (c1 c2 : ExecClientState) (a1 a2 : EventArg)
    (hc : abstractClient c1 = abstractClient c2) (ha : eraseArg a1 = eraseArg a2) :
    abstractClient (_on_event c1 a1).1 = abstractClient (_on_event c2 a2).1
    ∧ (_on_event c1 a1).2 = (_on_event c2 a2).2 := by
  obtain ⟨hreg, hidx, hlog⟩ := (abstractClient_eq_iff _ _).mp hc
  cases a1 with
  | otherEvent =>
      cases a2 <;> simp [eraseArg] at ha ⊢
      exact ⟨hc, rfl⟩
  | notAnEvent =>
      cases a2 <;> simp [eraseArg] at ha ⊢
      exact ⟨hc, rfl⟩
  | orderEvent e1 =>
      cases a2 with
      | otherEvent => simp [eraseArg] at ha
      | notAnEvent => simp [eraseArg] at ha
      | orderEvent e2 =>
          simp only [eraseArg, EventArg.orderEvent.injEq] at ha
          have hoid : e1.order_id = e2.order_id := by
            rw [← order_id_eraseEvent e1, ← order_id_eraseEvent e2, ha]
          have hmap := congrArg (fun l => List.lookup e1.order_id l) hreg
          simp only [lookup_eraseSinks] at hmap
          simp only [_on_event]
          rw [← hidx, ← hoid]
          cases hli : c1.order_index.lookup e1.order_id with
          | none =>
              dsimp only
              refine ⟨(abstractClient_eq_iff _ _).mpr ⟨hreg, rfl, ?_⟩, rfl⟩
              rw [hlog]
          | some sid =>
              dsimp only
              have hmap2 := congrArg (fun l => List.lookup sid l) hreg
              simp only [lookup_eraseSinks] at hmap2
              cases h1 : c1.registered_strategies.lookup sid with
              | none =>
                  cases h2 : c2.registered_strategies.lookup sid with
                  | none =>
                      dsimp only
                      exact ⟨hc, rfl⟩
                  | some evs2 => rw [h1, h2] at hmap2; simp at hmap2
              | some evs1 =>
                  cases h2 : c2.registered_strategies.lookup sid with
                  | none => rw [h1, h2] at hmap2; simp at hmap2
                  | some evs2 =>
                      dsimp only
                      refine ⟨(abstractClient_eq_iff _ _).mpr ⟨?_, rfl, hlog⟩, rfl⟩
                      rw [eraseSinks_deliver, eraseSinks_deliver, hreg, ha]

theorem register_strategy_abstract (c1 c2 : ExecClientState) (sid : StrategyId)
    (hc : abstractClient c1 = abstractClient c2) :
    abstractClient (register_strategy c1 sid).1 = abstractClient (register_strategy c2 sid).1
    ∧ (register_strategy c1 sid).2 = (register_strategy c2 sid).2 := by
  obtain ⟨hreg, hidx, hlog⟩ := (abstractClient_eq_iff _ _).mp hc
  have hmap := congrArg (fun l => List.lookup sid l) hreg
  simp only [lookup_eraseSinks] at hmap
  simp only [register_strategy]
  cases h1 : c1.registered_strategies.lookup sid with
  | none =>
      cases h2 : c2.registered_strategies.lookup sid with
      | none =>
          dsimp only
          refine ⟨(abstractClient_eq_iff _ _).mpr ⟨?_, hidx, hlog⟩, rfl⟩
          rw [eraseSinks_append, eraseSinks_append, hreg]
      | some evs2 => rw [h1, h2] at hmap; simp at hmap
  | some evs1 =>
      cases h2 : c2.registered_strategies.lookup sid with
      | none => rw [h1, h2] at hmap; simp at hmap
      | some evs2 =>
          dsimp only
          exact ⟨hc, rfl⟩

theorem register_order_abstract (c1 c2 : ExecClientState) (ord : OrderArg) (sid : StrategyId)
    (hc : abstractClient c1 = abstractClient c2) :
    abstractClient (_register_order c1 ord sid).1 = abstractClient (_register_order c2 ord sid).1
    ∧ (_register_order c1 ord sid).2 = (_register_order c2 ord sid).2 := by
  obtain ⟨hreg, hidx, hlog⟩ := (abstractClient_eq_iff _ _).mp hc
  cases ord with
  | notAnOrder => exact ⟨hc, rfl⟩
  | order o =>
      simp only [_register_order]
      rw [← hidx]
      cases hli : c1.order_index.lookup o.id with
      | none =>
          dsimp only
          exact ⟨(abstractClient_eq_iff _ _).mpr ⟨hreg, rfl, hlog⟩, rfl⟩
      | some sid2 =>
          dsimp only
          exact ⟨hc, rfl⟩

theorem dispatch_all_abstract (es1 es2 : List EventArg) (c1 c2 : ExecClientState)
    (hc : abstractClient c1 = abstractClient c2) (hes : es1.map eraseArg = es2.map eraseArg) :
    abstractClient (dispatch_all c1 es1).1 = abstractClient (dispatch_all c2 es2).1
    ∧ (dispatch_all c1 es1).2 = (dispatch_all c2 es2).2 := by
  induction es1 generalizing es2 c1 c2 with
  | nil =>
      cases es2 with
      | nil => exact ⟨hc, rfl⟩
      | cons e2 t2 => simp at hes
  | cons e1 t1 ih =>
      cases es2 with
      | nil => simp at hes
      | cons e2 t2 =>
          simp only [List.map_cons, List.cons.injEq] at hes
          obtain ⟨he, ht⟩ := hes
          obtain ⟨h1, h2⟩ := on_event_abstract c1 c2 e1 e2 hc he
          simp only [dispatch_all]
          cases hr1 : _on_event c1 e1 with
          | mk s1 r1 =>
          cases hr2 : _on_event c2 e2 with
          | mk s2 r2 =>
          rw [hr1, hr2] at h1 h2
          dsimp only at h1 h2 ⊢
          cases r1 with
          | none =>
              rw [← h2]
              exact ih t2 s1 s2 h1 ht
          | some err =>
              rw [← h2]
              exact ⟨h1, rfl⟩

theorem mock_submit_abstract (o1 o2 : Oracle) (σ1 σ2 : SimState) (ord : OrderArg)
    (sid : StrategyId) (h : abstractSim σ1 = abstractSim σ2) :
    abstractSim (mock_submit_order o1 σ1 ord sid).1 = abstractSim (mock_submit_order o2 σ2 ord sid).1
    ∧ (mock_submit_order o1 σ1 ord sid).2 = (mock_submit_order o2 σ2 ord sid).2 := by
  have hro := register_order_abstract σ1.client σ2.client ord sid h
  simp only [mock_submit_order]
  cases hr1 : _register_order σ1.client ord sid with
  | mk c1 r1 =>
  cases hr2 : _register_order σ2.client ord sid with
  | mk c2 r2 =>
  rw [hr1, hr2] at hro
  obtain ⟨hc, hr⟩ := hro
  dsimp only at hc hr ⊢
  cases r1 with
  | some err =>
      rw [← hr]
      exact ⟨hc, rfl⟩
  | none =>
      rw [← hr]
      cases ord with
      | notAnOrder => exact ⟨hc, rfl⟩
      | order order =>
          dsimp only
          refine (dispatch_all_abstract _ _ c1 c2 hc ?_)
          simp [eraseArg, eraseEvent]

theorem mock_cancel_abstract (o1 o2 : Oracle) (σ1 σ2 : SimState) (order : Order)
    (h : abstractSim σ1 = abstractSim σ2) :
    abstractSim (mock_cancel_order o1 σ1 order).1 = abstractSim (mock_cancel_order o2 σ2 order).1
    ∧ (mock_cancel_order o1 σ1 order).2 = (mock_cancel_order o2 σ2 order).2 := by
  have hoe := on_event_abstract σ1.client σ2.client
    (.orderEvent (.cancelled order.symbol order.id (o1.time σ1.time_count)
      (o1.uuid σ1.uuid_count) (o1.time (σ1.time_count + 1))))
    (.orderEvent (.cancelled order.symbol order.id (o2.time σ2.time_count)
      (o2.uuid σ2.uuid_count) (o2.time (σ2.time_count + 1))))
    h (by simp [eraseArg, eraseEvent])
  simp only [mock_cancel_order]
  exact ⟨hoe.1, hoe.2⟩

theorem mock_modify_abstract (o1 o2 : Oracle) (σ1 σ2 : SimState) (order : Order) (p : Price)
    (h : abstractSim σ1 = abstractSim σ2) :
    abstractSim (mock_modify_order o1 σ1 order p).1 = abstractSim (mock_modify_order o2 σ2 order p).1
    ∧ (mock_modify_order o1 σ1 order p).2 = (mock_modify_order o2 σ2 order p).2 := by
  have hoe := on_event_abstract σ1.client σ2.client
    (.orderEvent (.modified order.symbol order.id ("B" ++ order.id) p (o1.time σ1.time_count)
      (o1.uuid σ1.uuid_count) (o1.time (σ1.time_count + 1))))
    (.orderEvent (.modified order.symbol order.id ("B" ++ order.id) p (o2.time σ2.time_count)
      (o2.uuid σ2.uuid_count) (o2.time (σ2.time_count + 1))))
    h (by simp [eraseArg, eraseEvent])
  simp only [mock_modify_order]
  exact ⟨hoe.1, hoe.2⟩

theorem step_abstract (o1 o2 : Oracle) (σ1 σ2 : SimState) (c : Call)
    (h : abstractSim σ1 = abstractSim σ2) :
    abstractSim (step o1 σ1 c).1 = abstractSim (step o2 σ2 c).1
    ∧ (step o1 σ1 c).2 = (step o2 σ2 c).2 := by
  cases c with
  | registerStrategy sid =>
      have hrs := register_strategy_abstract σ1.client σ2.client sid h
      exact ⟨hrs.1, hrs.2⟩
  | submitOrder ord sid => exact mock_submit_abstract o1 o2 σ1 σ2 ord sid h
  | cancelOrder order => exact mock_cancel_abstract o1 o2 σ1 σ2 order h
  | modifyOrder order p => exact mock_modify_abstract o1 o2 σ1 σ2 order p h
  | onEvent ev =>
      have hoe := on_event_abstract σ1.client σ2.client ev ev h rfl
      exact ⟨hoe.1, hoe.2⟩

theorem run_abstract (o1 o2 : Oracle) (σ1 σ2 : SimState) (cs : List Call)
    (h : abstractSim σ1 = abstractSim σ2) :
    abstractSim (run o1 σ1 cs).1 = abstractSim (run o2 σ2 cs).1
    ∧ (run o1 σ1 cs).2 = (run o2 σ2 cs).2 := by
  induction cs generalizing σ1 σ2 with
  | nil => exact ⟨h, rfl⟩
  | cons c cs ih =>
      obtain ⟨h1, h2⟩ := step_abstract o1 o2 σ1 σ2 c h
      simp only [run]
      cases hr1 : step o1 σ1 c with
      | mk τ1 r1 =>
      cases hr2 : step o2 σ2 c with
      | mk τ2 r2 =>
      rw [hr1, hr2] at h1 h2
      dsimp only at h1 h2 ⊢
      cases r1 with
      | none =>
          rw [← h2]
          exact ih τ1 τ2 h1
      | some err =>
          rw [← h2]
          exact ⟨h1, rfl⟩

/-! ### The order index only grows -/

theorem on_event_order_index (s : ExecClientState) (ev : EventArg) :
    (_on_event s ev).1.order_index = s.order_index := by
  cases ev with
  | orderEvent e =>
      simp only [_on_event]
      cases s.order_index.lookup e.order_id with
      | none => rfl
      | some sid =>
          dsimp only
          cases s.registered_strategies.lookup sid with
          | none => rfl
          | some evs => rfl
  | otherEvent => rfl
  | notAnEvent => rfl

theorem on_event_log_of_found (s : ExecClientState) (e : OrderEvent) (sid : StrategyId)
    (h : s.order_index.lookup e.order_id = some sid) :
    (_on_event s (.orderEvent e)).1.log = s.log := by
  simp only [_on_event, h]
  cases s.registered_strategies.lookup sid with
  | none => rfl
  | some evs => rfl

theorem dispatch_all_order_index (s : ExecClientState) (es : List EventArg) :
    (dispatch_all s es).1.order_index = s.order_index := by
  induction es generalizing s with
  | nil => rfl
  | cons e t ih =>
      simp only [dispatch_all]
      cases hr : _on_event s e with
      | mk s1 r1 =>
      have hidx := on_event_order_index s e
      rw [hr] at hidx
      cases r1 with
      | none =>
          dsimp only
          rw [ih s1, hidx]
      | some err => exact hidx

theorem register_strategy_order_index (s : ExecClientState) (sid : StrategyId) :
    (register_strategy s sid).1.order_index = s.order_index := by
  simp only [register_strategy]
  cases s.registered_strategies.lookup sid with
  | none => rfl
  | some evs => rfl

theorem register_order_grows (s : ExecClientState) (ord : OrderArg) (sid : StrategyId) :
    ∃ t, (_register_order s ord sid).1.order_index = s.order_index ++ t := by
  cases ord with
  | notAnOrder => exact ⟨[], by simp [_register_order]⟩
  | order o =>
      simp only [_register_order]
      cases h : s.order_index.lookup o.id with
      | some sid2 => exact ⟨[], by simp⟩
      | none => exact ⟨[(o.id, sid)], rfl⟩

theorem step_order_index_grows (o : Oracle) (σ : SimState) (c : Call) :
    ∃ t, (step o σ c).1.client.order_index = σ.client.order_index ++ t := by
  cases c with
  | registerStrategy sid =>
      exact ⟨[], by simp [step, register_strategy_order_index]⟩
  | onEvent ev => exact ⟨[], by simp [step, on_event_order_index]⟩
  | cancelOrder order =>
      exact ⟨[], by simp [step, mock_cancel_order, on_event_order_index]⟩
  | modifyOrder order p =>
      exact ⟨[], by simp [step, mock_modify_order, on_event_order_index]⟩
  | submitOrder ord sid =>
      obtain ⟨t, ht⟩ := register_order_grows σ.client ord sid
      simp only [step, mock_submit_order]
      cases hr : _register_order σ.client ord sid with
      | mk c1 r1 =>
      rw [hr] at ht
      dsimp only at ht ⊢
      cases r1 with
      | some err => exact ⟨t, ht⟩
      | none =>
          cases ord with
          | notAnOrder => exact ⟨t, ht⟩
          | order order =>
              dsimp only
              rw [dispatch_all_order_index]
              exact ⟨t, ht⟩

theorem run_order_index_grows (o : Oracle) (σ : SimState) (cs : List Call) :
    ∃ t, (run o σ cs).1.client.order_index = σ.client.order_index ++ t := by
  induction cs generalizing σ with
  | nil => exact ⟨[], by simp [run]⟩
  | cons c cs ih =>
      obtain ⟨t1, ht1⟩ := step_order_index_grows o σ c
      simp only [run]
      cases hr : step o σ c with
      | mk σ1 r1 =>
      rw [hr] at ht1
      dsimp only at ht1 ⊢
      cases r1 with
      | none =>
          obtain ⟨t2, ht2⟩ := ih σ1
          exact ⟨t1 ++ t2, by rw [ht2, ht1, List.append_assoc]⟩
      | some err => exact ⟨t1, ht1⟩

/-! ### Inversion and dispatch lemmas -/

theorem on_event_delivers (s : ExecClientState) (e : OrderEvent) (strategy_id : StrategyId)
    (evs : List OrderEvent) (hidx : s.order_index.lookup e.order_id = some strategy_id)
    (hreg : s.registered_strategies.lookup strategy_id = some evs) :
    _on_event s (.orderEvent e) =
      ({ s with registered_strategies := deliver s.registered_strategies strategy_id e },
       none) := by
  simp [_on_event, hidx, hreg]

theorem register_order_error_state (s : ExecClientState) (ord : OrderArg) (sid : StrategyId)
    (err : ExecError) (h : (_register_order s ord sid).2 = some err) :
    (_register_order s ord sid).1 = s := by
  cases ord with
  | notAnOrder => rfl
  | order o =>
      simp only [_register_order] at h ⊢
      cases hl : s.order_index.lookup o.id with
      | some sid2 => simp [hl]
      | none => rw [hl] at h; simp at h

/-! ### Concrete fixtures for witnesses and counterexamples -/

/-- A concrete oracle assigning distinct values to successive draws. -/
def oracleA : Oracle := ⟨fun n => n + 100, fun n => n + 1000⟩

/-- A second concrete oracle, returning different values than `oracleA`. -/
def oracleB : Oracle := ⟨fun _ => 7, fun _ => 7⟩

/-- One strategy `S-1` registered, nothing else. -/
def oneStrategyState : ExecClientState :=
  { registered_strategies := [("S-1", [])], order_index := [], log := [] }

/-- One order `O-1` owned by `S-1` in the order index, nothing else. -/
def oneOrderState : ExecClientState :=
  { registered_strategies := [], order_index := [("O-1", "S-1")], log := [] }

/-- Strategy `S-1` registered and order `O-1` owned by `S-1`. -/
def readyState : SimState :=
  { client := { registered_strategies := [("S-1", [])], order_index := [("O-1", "S-1")],
                log := [] },
    uuid_count := 0, time_count := 0 }

/-- The identical input script of the two compared runs: register `S-1`,
then submit order `O-1`. -/
def detCalls : List Call :=
  [.registerStrategy "S-1", .submitOrder (.order ⟨"O-1", "X"⟩) "S-1"]

/-! ### Claims -/

/-- C9: `_on_event` applied to an argument that is not an `Event`
(the `isinstance` check constructs a `TypeError` without raising it),
or to an `Event` that is not an `OrderEvent`, returns normally with no
exception, delivers nothing to any sink, and leaves both registries
unchanged. -/
theorem on_event_non_event_no_raise (s : ExecClientState) :
    _on_event s .notAnEvent = (s, none) ∧ _on_event s .otherEvent = (s, none) :=
  ⟨rfl, rfl⟩

/-- C6: an `OrderEvent` whose `order_id` is not in the order index is
dropped by `_on_event`: no strategy sink is invoked, no exception is
raised, a warning is logged, and both registries are unchanged. -/
theorem on_event_unknown_order_dropped (s : ExecClientState) (e : OrderEvent)
    (h : s.order_index.lookup e.order_id = none) :
    _on_event s (.orderEvent e) =
      ({ s with log := s.log ++
          ["Execution: Warning given event order id not contained in index " ++ e.order_id] },
       none) := by
  simp [_on_event, h]

/-- Witness for C6 at a concrete unknown-order event. -/
theorem on_event_unknown_order_dropped_witness :
    _on_event ExecClientState.empty (.orderEvent (.working "X" "O-999" "BO-999" 0 0 0)) =
      ({ ExecClientState.empty with log := ExecClientState.empty.log ++
          ["Execution: Warning given event order id not contained in index " ++
            (OrderEvent.working "X" "O-999" "BO-999" 0 0 0).order_id] },
       none) :=
  on_event_unknown_order_dropped ExecClientState.empty _ rfl

/-- C5: registering the same strategy identity twice fails: the second
`register_strategy` raises `ValueError` and leaves the registry (and
the first registration's sink) unchanged. -/
theorem duplicate_strategy_registration_rejected (s s1 : ExecClientState)
    (strategy_id : StrategyId) (h : register_strategy s strategy_id = (s1, none)) :
    register_strategy s1 strategy_id =
      (s1, some (.valueError "The strategy does not have a unique name and label."))
    ∧ s1.registered_strategies.lookup strategy_id = some [] := by
  simp only [register_strategy] at h
  cases hl : s.registered_strategies.lookup strategy_id with
  | some evs => rw [hl] at h; simp at h
  | none =>
      rw [hl] at h
      dsimp only at h
      injection h with h1 h2
      subst h1
      have hlk : (s.registered_strategies ++ [(strategy_id, [])]).lookup strategy_id
          = some [] := by
        rw [lookup_append_none _ _ _ hl]
        exact lookup_singleton_self _ _
      refine ⟨?_, hlk⟩
      simp [register_strategy, hlk]

/-- Witness for C5: `S-1` registered on the fresh client, registered
again. -/
theorem duplicate_strategy_registration_rejected_witness :
    register_strategy oneStrategyState "S-1" =
      (oneStrategyState, some (.valueError "The strategy does not have a unique name and label."))
    ∧ oneStrategyState.registered_strategies.lookup "S-1" = some [] :=
  duplicate_strategy_registration_rejected ExecClientState.empty oneStrategyState "S-1"
    (by decide)

/-- C4: registering two orders with the same id fails: the second
`_register_order` raises `ValueError`, the registry state is unchanged
by the failed call, and the existing `order.id → strategy_id`
association is preserved. -/
theorem duplicate_order_registration_rejected (s s1 : ExecClientState) (o1 o2 : Order)
    (sid1 sid2 : StrategyId) (h : _register_order s (.order o1) sid1 = (s1, none))
    (hid : o2.id = o1.id) :
    _register_order s1 (.order o2) sid2 =
      (s1, some (.valueError "The order does not have a unique id."))
    ∧ s1.order_index.lookup o1.id = some sid1 := by
  simp only [_register_order] at h
  cases hl : s.order_index.lookup o1.id with
  | some sid0 => rw [hl] at h; simp at h
  | none =>
      rw [hl] at h
      dsimp only at h
      injection h with h1 h2
      subst h1
      have hlk : (s.order_index ++ [(o1.id, sid1)]).lookup o1.id = some sid1 := by
        rw [lookup_append_none _ _ _ hl]
        exact lookup_singleton_self _ _
      refine ⟨?_, hlk⟩
      simp [_register_order, hid, hlk]

/-- Witness for C4: order `O-1` registered for `S-1` on the fresh
client, then a second order with the same id registered for `S-2`. -/
theorem duplicate_order_registration_rejected_witness :
    _register_order oneOrderState (.order ⟨"O-1", "Y"⟩) "S-2" =
      (oneOrderState, some (.valueError "The order does not have a unique id."))
    ∧ oneOrderState.order_index.lookup (Order.mk "O-1" "X").id = some "S-1" :=
  duplicate_order_registration_rejected ExecClientState.empty oneOrderState
    ⟨"O-1", "X"⟩ ⟨"O-1", "Y"⟩ "S-1" "S-2" (by decide) rfl

/-- C3: on every adapter `submit_order` registers the order before any
adapter-specific action; when registration raises, the call propagates
the exception and performs no venue action — on the mock adapter the
whole simulation state is unchanged (no event constructed, delivered
or logged), and on the live adapter the call is exactly the failed
registration. -/
theorem submit_order_registration_failure_no_venue_action (o : Oracle) (σ : SimState)
    (ord : OrderArg) (strategy_id : StrategyId) (err : ExecError)
    (h : (_register_order σ.client ord strategy_id).2 = some err) :
    mock_submit_order o σ ord strategy_id = (σ, some err)
    ∧ live_submit_order σ.client ord strategy_id = (σ.client, some err) := by
  have hst := register_order_error_state σ.client ord strategy_id err h
  constructor
  · simp only [mock_submit_order]
    cases hr : _register_order σ.client ord strategy_id with
    | mk c r =>
    rw [hr] at h hst
    dsimp only at h hst
    subst h
    subst hst
    rfl
  · simp only [live_submit_order]
    cases hr : _register_order σ.client ord strategy_id with
    | mk c r =>
    rw [hr] at h hst
    dsimp only at h hst
    subst h
    subst hst
    rfl

/-- Witness for C3: submitting a duplicate of the already registered
order `O-1` on both adapters. -/
theorem submit_order_registration_failure_no_venue_action_witness :
    mock_submit_order oracleA readyState (.order ⟨"O-1", "X"⟩) "S-1" =
      (readyState, some (.valueError "The order does not have a unique id."))
    ∧ live_submit_order readyState.client (.order ⟨"O-1", "X"⟩) "S-1" =
      (readyState.client, some (.valueError "The order does not have a unique id.")) :=
  submit_order_registration_failure_no_venue_action oracleA readyState
    (.order ⟨"O-1", "X"⟩) "S-1" _ (by decide)

theorem dispatch_all_delivers (es : List OrderEvent) (s : ExecClientState) (oid : OrderId)
    (strategy_id : StrategyId) (evs : List OrderEvent)
    (hoid : ∀ e ∈ es, e.order_id = oid)
    (hidx : s.order_index.lookup oid = some strategy_id)
    (hreg : s.registered_strategies.lookup strategy_id = some evs) :
    (dispatch_all s (es.map .orderEvent)).2 = none
    ∧ (dispatch_all s (es.map .orderEvent)).1.order_index = s.order_index
    ∧ (dispatch_all s (es.map .orderEvent)).1.registered_strategies.lookup strategy_id
        = some (evs ++ es)
    ∧ ∀ sid2, sid2 ≠ strategy_id →
        (dispatch_all s (es.map .orderEvent)).1.registered_strategies.lookup sid2
          = s.registered_strategies.lookup sid2 := by
  induction es generalizing s evs with
  | nil =>
      refine ⟨rfl, rfl, ?_, fun sid2 _ => rfl⟩
      simpa using hreg
  | cons e t ih =>
      have hoide : e.order_id = oid := hoid e (by simp)
      have h1 : _on_event s (.orderEvent e) =
          ({ s with registered_strategies := deliver s.registered_strategies strategy_id e },
           none) :=
        on_event_delivers s e strategy_id evs (by rw [hoide]; exact hidx) hreg
      have hreg2 := lookup_deliver_self s.registered_strategies strategy_id e evs hreg
      have ihh := ih
        ({ s with registered_strategies := deliver s.registered_strategies strategy_id e })
        (evs ++ [e]) (fun e2 he2 => hoid e2 (by simp [he2])) hidx hreg2
      simp only [List.map_cons, dispatch_all, h1]
      refine ⟨ihh.1, ihh.2.1, ?_, ?_⟩
      · rw [ihh.2.2.1, List.append_assoc, List.singleton_append]
      · intro sid2 hne
        rw [ihh.2.2.2 sid2 hne]
        exact lookup_deliver_ne _ _ _ _ hne

/-- C1: submitting a fresh order for a registered strategy on the mock
adapter raises nothing and synchronously delivers to that strategy's
sink exactly the ordered sequence `Submitted`, `Accepted`, `Working`,
the working event carrying broker id `"B" ++ order.id`, while every
other strategy's sink is left untouched. -/
theorem mock_submit_order_delivers (o : Oracle) (σ : SimState) (order : Order)
    (strategy_id : StrategyId) (evs : List OrderEvent)
    (hord : σ.client.order_index.lookup order.id = none)
    (hstrat : σ.client.registered_strategies.lookup strategy_id = some evs) :
    (mock_submit_order o σ (.order order) strategy_id).2 = none
    ∧ (mock_submit_order o σ (.order order) strategy_id).1.client.registered_strategies.lookup
        strategy_id =
      some (evs ++
        [.submitted order.symbol order.id (o.time σ.time_count) (o.uuid σ.uuid_count)
            (o.time (σ.time_count + 1)),
         .accepted order.symbol order.id (o.time (σ.time_count + 2)) (o.uuid (σ.uuid_count + 1))
            (o.time (σ.time_count + 3)),
         .working order.symbol order.id ("B" ++ order.id) (o.time (σ.time_count + 4))
            (o.uuid (σ.uuid_count + 2)) (o.time (σ.time_count + 5))])
    ∧ ∀ sid2, sid2 ≠ strategy_id →
        (mock_submit_order o σ (.order order) strategy_id).1.client.registered_strategies.lookup
          sid2 = σ.client.registered_strategies.lookup sid2 := by
  have hidx : (σ.client.order_index ++ [(order.id, strategy_id)]).lookup order.id
      = some strategy_id := by
    rw [lookup_append_none _ _ _ hord]
    exact lookup_singleton_self _ _
  have hd := dispatch_all_delivers
    [.submitted order.symbol order.id (o.time σ.time_count) (o.uuid σ.uuid_count)
        (o.time (σ.time_count + 1)),
     .accepted order.symbol order.id (o.time (σ.time_count + 2)) (o.uuid (σ.uuid_count + 1))
        (o.time (σ.time_count + 3)),
     .working order.symbol order.id ("B" ++ order.id) (o.time (σ.time_count + 4))
        (o.uuid (σ.uuid_count + 2)) (o.time (σ.time_count + 5))]
    ({ σ.client with order_index := σ.client.order_index ++ [(order.id, strategy_id)] })
    order.id strategy_id evs
    (by intro e he; simp at he; rcases he with rfl | rfl | rfl <;> rfl)
    hidx hstrat
  simp only [mock_submit_order, _register_order, hord]
  exact ⟨hd.1, hd.2.2.1, hd.2.2.2⟩

/-- Witness for C1: strategy `S-1` registered, fresh order `O-1`
submitted under `oracleA`. -/
theorem mock_submit_order_delivers_witness :
    (mock_submit_order oracleA ⟨oneStrategyState, 0, 0⟩ (.order ⟨"O-1", "X"⟩) "S-1").2 = none
    ∧ (mock_submit_order oracleA ⟨oneStrategyState, 0, 0⟩
        (.order ⟨"O-1", "X"⟩) "S-1").1.client.registered_strategies.lookup "S-1" =
      some [.submitted "X" "O-1" 1000 100 1001, .accepted "X" "O-1" 1002 101 1003,
            .working "X" "O-1" "BO-1" 1004 102 1005] := by
  have h := mock_submit_order_delivers oracleA ⟨oneStrategyState, 0, 0⟩ ⟨"O-1", "X"⟩ "S-1" []
    (by decide) (by decide)
  exact ⟨h.1, by rw [h.2.1]; rfl⟩

/-- C7: modifying a previously submitted order on the mock adapter
delivers to the owning strategy's sink exactly one `Modified` event
carrying the requested `new_price` and the broker id `"B" ++ order.id`
synthesized at submission, while every other sink is untouched. -/
theorem mock_modify_order_delivers_modified (o : Oracle) (σ : SimState) (order : Order)
    (strategy_id : StrategyId) (evs : List OrderEvent) (new_price : Price)
    (hidx : σ.client.order_index.lookup order.id = some strategy_id)
    (hstrat : σ.client.registered_strategies.lookup strategy_id = some evs) :
    (mock_modify_order o σ order new_price).2 = none
    ∧ (mock_modify_order o σ order new_price).1.client.registered_strategies.lookup strategy_id
      = some (evs ++
        [.modified order.symbol order.id ("B" ++ order.id) new_price (o.time σ.time_count)
          (o.uuid σ.uuid_count) (o.time (σ.time_count + 1))])
    ∧ ∀ sid2, sid2 ≠ strategy_id →
        (mock_modify_order o σ order new_price).1.client.registered_strategies.lookup sid2
          = σ.client.registered_strategies.lookup sid2 := by
  have h1 := on_event_delivers σ.client
    (.modified order.symbol order.id ("B" ++ order.id) new_price (o.time σ.time_count)
      (o.uuid σ.uuid_count) (o.time (σ.time_count + 1)))
    strategy_id evs hidx hstrat
  simp only [mock_modify_order]
  rw [h1]
  exact ⟨rfl, lookup_deliver_self _ _ _ _ hstrat,
    fun sid2 hne => lookup_deliver_ne _ _ _ _ hne⟩

/-- Witness for C7: modifying `O-1` (owned by registered `S-1`) to
price 42. -/
theorem mock_modify_order_delivers_modified_witness :
    (mock_modify_order oracleA readyState ⟨"O-1", "X"⟩ 42).2 = none
    ∧ (mock_modify_order oracleA readyState
        ⟨"O-1", "X"⟩ 42).1.client.registered_strategies.lookup "S-1"
      = some [.modified "X" "O-1" "BO-1" 42 1000 100 1001] := by
  have h := mock_modify_order_delivers_modified oracleA readyState ⟨"O-1", "X"⟩ "S-1" [] 42
    (by decide) (by decide)
  exact ⟨h.1, by rw [h.2.1]; rfl⟩

/-- C10: `submit_order` does not validate the strategy id: with a fresh
order and an unregistered strategy id, the mock adapter first adds the
order to the order index, then raises `KeyError` while dispatching the
first event; the failed call leaves the order registered (registration
is not rolled back) and delivers nothing to any sink. -/
theorem mock_submit_order_unregistered_strategy (o : Oracle) (σ : SimState) (order : Order)
    (strategy_id : StrategyId)
    (hord : σ.client.order_index.lookup order.id = none)
    (hstrat : σ.client.registered_strategies.lookup strategy_id = none) :
    mock_submit_order o σ (.order order) strategy_id =
      ({ client := { σ.client with
            order_index := σ.client.order_index ++ [(order.id, strategy_id)] },
         uuid_count := σ.uuid_count + 3, time_count := σ.time_count + 6 },
       some (.keyError strategy_id)) := by
  have hidx : (σ.client.order_index ++ [(order.id, strategy_id)]).lookup order.id
      = some strategy_id := by
    rw [lookup_append_none _ _ _ hord]
    exact lookup_singleton_self _ _
  have h1 : _on_event
      ({ σ.client with order_index := σ.client.order_index ++ [(order.id, strategy_id)] })
      (.orderEvent (.submitted order.symbol order.id (o.time σ.time_count)
        (o.uuid σ.uuid_count) (o.time (σ.time_count + 1)))) =
      ({ σ.client with order_index := σ.client.order_index ++ [(order.id, strategy_id)] },
       some (.keyError strategy_id)) := by
    simp [_on_event, OrderEvent.order_id, hidx, hstrat]
  simp only [mock_submit_order, _register_order, hord, dispatch_all]
  rw [h1]

/-- Witness for C10: submitting `O-1` under the unregistered strategy
id `S-none` on the fresh client. -/
theorem mock_submit_order_unregistered_strategy_witness :
    mock_submit_order oracleA SimState.empty (.order ⟨"O-1", "X"⟩) "S-none" =
      ({ client := { SimState.empty.client with
            order_index := SimState.empty.client.order_index
              ++ [((Order.mk "O-1" "X").id, "S-none")] },
         uuid_count := SimState.empty.uuid_count + 3,
         time_count := SimState.empty.time_count + 6 },
       some (.keyError "S-none")) :=
  mock_submit_order_unregistered_strategy oracleA SimState.empty ⟨"O-1", "X"⟩ "S-none" rfl rfl

/-- C8: over any sequence of operations, the order index only grows by
appending, so a registered `order_id → strategy_id` association is
never overwritten or removed: every association holding before a run
still holds after it. -/
theorem order_index_association_immutable (o : Oracle) (σ : SimState) (cs : List Call) :
    (∃ t, (run o σ cs).1.client.order_index = σ.client.order_index ++ t)
    ∧ ∀ oid sid, σ.client.order_index.lookup oid = some sid →
        (run o σ cs).1.client.order_index.lookup oid = some sid := by
  obtain ⟨t, ht⟩ := run_order_index_grows o σ cs
  refine ⟨⟨t, ht⟩, ?_⟩
  intro oid sid h
  rw [ht]
  exact lookup_append_some _ _ _ _ h

/-- Witness for C8: after a run containing a cancel, a submit and a
stray inbound event, `O-1` is still owned by `S-1`. -/
theorem order_index_association_immutable_witness :
    (run oracleA readyState
      [Call.cancelOrder ⟨"O-1", "X"⟩, Call.submitOrder (.order ⟨"O-2", "X"⟩) "S-1",
       Call.onEvent (.orderEvent (.expired "X" "O-7" 0 0 0))]).1.client.order_index.lookup
      "O-1" = some "S-1" :=
  (order_index_association_immutable oracleA readyState
    [Call.cancelOrder ⟨"O-1", "X"⟩, Call.submitOrder (.order ⟨"O-2", "X"⟩) "S-1",
     Call.onEvent (.orderEvent (.expired "X" "O-7" 0 0 0))]).2 "O-1" "S-1" (by decide)

/-- C2 counterexample: two runs of the mock adapter on identical
inputs (the same registered strategy and the same submitted order) but
under different ambient `uuid4`/`utcnow` draws produce different event
sequences — the delivered events differ in `event_id` and timestamps,
so the output is not byte-identical across runs. -/
theorem mock_run_not_bytewise_identical :
    run oracleA SimState.empty detCalls ≠ run oracleB SimState.empty detCalls := by
  decide

/-- C2 (amended): given identical inputs, two runs of the mock adapter
produce identical event sequences up to the oracle-drawn fields: after
erasing `event_id`, `event_timestamp` and `occurred_timestamp` from
every delivered event, the per-strategy event sequences, the order
index, the log and the raised exception are all equal across the two
runs, whatever values `uuid4` and `utcnow` return. -/
theorem mock_run_deterministic_up_to_ids (o1 o2 : Oracle) (cs : List Call) :
    abstractSim (run o1 SimState.empty cs).1 = abstractSim (run o2 SimState.empty cs).1
    ∧ (run o1 SimState.empty cs).2 = (run o2 SimState.empty cs).2 :=
  run_abstract o1 o2 SimState.empty SimState.empty cs rfl
